import Mathlib

/-!
Verification development for the Bluetooth Mesh access layer
(subsys/bluetooth/mesh/access.c and large_comp_data_srv.c).

The C code is shallowly embedded: composition data is a Lean structure,
buffers with bounded tailroom become a write state (remaining skip offset
plus the bytes written so far, with an explicit capacity), machine
integers are Nat/Int with explicit truncation where the C truncates, and
fallible operations return Option/Except.  Every definition mirrors the
corresponding C function; doc comments name the C symbol it embeds.
-/

namespace MeshAccess

/-- Little-endian 16-bit serialization (sys_put_le16): two bytes. -/
def le16 (v : Nat) : List Nat := [v % 256, v / 256 % 256]

/-- Single byte write, truncated to uint8 as C does when passing to a uint8_t parameter. -/
def u8 (v : Nat) : List Nat := [v % 256]

/-- Write state threaded through the page producers: `off` is the remaining
skip offset (the C code decrements the caller's offset as it skips data before
the window) and `out` is the bytes written to the buffer so far.  The buffer
capacity (tailroom at entry) is passed separately; tailroom during the write
is capacity minus bytes written. -/
structure WSt where
  off : Nat
  out : List Nat
deriving DecidableEq

/-- Embedding of data_buf_add_mem_offset: when the remaining offset covers the
whole chunk, skip it and decrement the offset; otherwise write the part of the
chunk after the offset, clipped to the remaining tailroom, and zero the offset. -/
def data_buf_add_mem_offset (cap : Nat) (s : WSt) (data : List Nat) : WSt :=
  if data.length ≤ s.off then
    ⟨s.off - data.length, s.out⟩
  else
    ⟨0, s.out ++ (data.drop s.off).take (cap - s.out.length)⟩

/-- Sequential data_buf_add_mem_offset calls over a list of chunks
(data_buf_add_le16_offset and data_buf_add_u8_offset are single chunks). -/
def writeChunks (cap : Nat) (s : WSt) (cs : List (List Nat)) : WSt :=
  cs.foldl (data_buf_add_mem_offset cap) s

/-- One element-like unit of a page: the size used by the producers for the
fast element skip, and the chunks actually written for the element. -/
structure PageElem where
  claimed : Nat
  chunks : List (List Nat)

/-- Embedding of the per-element body shared by bt_mesh_comp_data_get_page_0/1/2
with allow_partial_elems = true (the path taken by bt_mesh_comp_data_get_page):
skip the element when the remaining offset covers its claimed size; stop when no
tailroom is left (the C code returns from the producer there, which is
observationally the same for the produced bytes as continuing, since a full
buffer never receives further bytes); otherwise emit the element's chunks. -/
def elemStep (cap : Nat) (s : WSt) (e : PageElem) : WSt :=
  if e.claimed ≤ s.off then
    ⟨s.off - e.claimed, s.out⟩
  else if cap - s.out.length = 0 then
    s
  else
    writeChunks cap s e.chunks

/-- Fold of elemStep over the elements of a page. -/
def elemsWrite (cap : Nat) (s : WSt) (es : List PageElem) : WSt :=
  es.foldl (elemStep cap) s

/-- Contiguous window of a byte list: the bytes a producer emits when entering
with a skip offset and a tailroom bound. -/
def window (bs : List Nat) (off k : Nat) : List Nat :=
  (bs.drop off).take k

/-! ### Composition data: data model -/

/-- One element of the composition for page 0 and page 1: location descriptor,
SIG model ids, vendor (company, id) pairs.  Page 1 only uses the model counts;
the models' relation data lives in the relation table. -/
structure Elem0 where
  loc : Nat
  sigs : List Nat
  vnds : List (Nat × Nat)
deriving DecidableEq

/-- Static composition data for page 0 (struct bt_mesh_comp plus the feature
bits and CONFIG_BT_MESH_CRPL, which feed the fixed 10-byte header). -/
structure Comp0 where
  cid : Nat
  pid : Nat
  vid : Nat
  crpl : Nat
  feat : Nat
  elems : List Elem0
deriving DecidableEq

/-! ### Page 0 -/

/-- Embedding of bt_mesh_comp_elem_size: 4 + 2 per SIG model + 4 per vendor model. -/
def bt_mesh_comp_elem_size (e : Elem0) : Nat :=
  4 + e.sigs.length * 2 + e.vnds.length * 4

/-- Chunks written for one element by comp_add_elem: loc (le16), model count,
vendor model count, then each SIG model id (le16) and each vendor model's
company and id (le16 each, two separate writes as in comp_add_model). -/
def elem0Chunks (e : Elem0) : List (List Nat) :=
  [le16 e.loc, u8 e.sigs.length, u8 e.vnds.length]
    ++ e.sigs.map le16
    ++ (e.vnds.map (fun v => [le16 v.1, le16 v.2])).flatten

/-- Element serialization with unbounded tailroom and no offset. -/
def elem0Bytes (e : Elem0) : List Nat :=
  (elem0Chunks e).flatten

/-- Embedding of comp_add_elem as a PageElem: the skip size is
bt_mesh_comp_elem_size and the body writes elem0Chunks. -/
def comp_add_elem (e : Elem0) : PageElem :=
  ⟨bt_mesh_comp_elem_size e, elem0Chunks e⟩

/-- Fixed 10-byte header of page 0: CID, PID, VID, CRPL, features, all le16. -/
def page0HeaderChunks (c : Comp0) : List (List Nat) :=
  [le16 c.cid, le16 c.pid, le16 c.vid, le16 c.crpl, le16 c.feat]

/-- Embedding of bt_mesh_comp_data_get_page_0 with allow_partial_elems = true:
bytes produced into a buffer with tailroom `cap`, starting at byte `off` of the
page.  The header writes are unguarded; elements go through comp_add_elem. -/
def bt_mesh_comp_data_get_page_0 (c : Comp0) (cap off : Nat) : List Nat :=
  (elemsWrite cap (writeChunks cap ⟨off, []⟩ (page0HeaderChunks c))
    (c.elems.map comp_add_elem)).out

/-- Full serialization of composition data page 0. -/
def page0Bytes (c : Comp0) : List Nat :=
  (page0HeaderChunks c).flatten ++ (c.elems.map elem0Bytes).flatten

/-- Embedding of comp_page_0_size: 10 fixed bytes plus the element sizes. -/
def comp_page_0_size (c : Comp0) : Nat :=
  c.elems.foldl (fun sz e => sz + bt_mesh_comp_elem_size e) 10

/-! ### Relation table and page 1 -/

/-- Embedding of struct mod_relation.  `rtype` is the C `type` field: values
0x00-0xFE mark a correspondence group id, 0xFF marks extension. -/
structure ModRel where
  elem_base : Nat
  idx_base : Nat
  elem_ext : Nat
  idx_ext : Nat
  rtype : Nat
deriving DecidableEq

/-- Relation type value marking extension (RELATION_TYPE_EXT). -/
def RELATION_TYPE_EXT : Nat := 255

/-- Embedding of MOD_REL_LIST_FOR_EACH: iteration stops at the first record
whose four model coordinates are all zero (the free-slot sentinel). -/
def activeRels (rels : List ModRel) : List ModRel :=
  rels.takeWhile (fun r =>
    !(r.elem_base == 0 && r.idx_base == 0 && r.elem_ext == 0 && r.idx_ext == 0))

/-- Model coordinates inside the relation table: element index and the
element-local model index already shifted by the SIG model count for vendor
models (get_sig_offset applied, as IS_MOD_BASE/IS_MOD_EXTENSION expect). -/
structure ModKey where
  elemIdx : Nat
  idx : Nat
deriving DecidableEq

/-- Embedding of IS_MOD_BASE. -/
def IS_MOD_BASE (m : ModKey) (r : ModRel) : Bool :=
  r.elem_base == m.elemIdx && r.idx_base == m.idx

/-- Embedding of IS_MOD_EXTENSION. -/
def IS_MOD_EXTENSION (m : ModKey) (r : ModRel) : Bool :=
  r.elem_ext == m.elemIdx && r.idx_ext == m.idx

/-- Value of an int8_t assigned from an int (gcc semantics: wrap mod 256 into
the signed byte range), used for the `offset` local in count_mod_ext. -/
def int8OfInt (v : Int) : Int :=
  (v + 128).emod 256 - 128

/-- Embedding of count_mod_ext: the number of extension records whose extension
side is this model, and the signed element offset of largest magnitude among
them (the C stores elem_ext - elem_base in an int8_t). -/
def count_mod_ext (rels : List ModRel) (m : ModKey) : Nat × Int :=
  (activeRels rels).foldl
    (fun acc r =>
      if IS_MOD_EXTENSION m r && r.rtype == RELATION_TYPE_EXT then
        let off := int8OfInt ((r.elem_ext : Int) - (r.elem_base : Int))
        ((acc.1 + 1) % 256, if acc.2.natAbs < off.natAbs then off else acc.2)
      else acc)
    (0, 0)

/-- Embedding of is_cor_present: the first record referencing this model on
either side with a type below 0xFF yields the correspondence id. -/
def is_cor_present (rels : List ModRel) (m : ModKey) : Option Nat :=
  ((activeRels rels).find? (fun r =>
    (IS_MOD_BASE m r || IS_MOD_EXTENSION m r) && r.rtype < RELATION_TYPE_EXT)).map
    (fun r => r.rtype)

/-- Bytes written by prep_model_item_header: the header byte (extension count
shifted left 2, long-format bit, correspondence bit) and, when a correspondence
is present, the correspondence id byte. -/
def prep_model_item_header (rels : List ModRel) (m : ModKey) : List Nat :=
  let ec := (count_mod_ext rels m).1
  let maxOff := (count_mod_ext rels m).2
  let longBit : Nat := if 31 < ec || 3 < maxOff || maxOff < -4 then 2 else 0
  let corBit : Nat := if (is_cor_present rels m).isSome then 1 else 0
  u8 (ec * 4 % 256 + longBit + corBit)
    ++ (match is_cor_present rels m with
        | some cid => u8 cid
        | none => [])

/-- Bytes of one extension entry in add_items_to_page.  The element offset is
computed in a plain int (model element index minus record base element index);
the short format packs the wrapped offset with the base model index, the long
format emits the offset byte (negatives wrapped by 256) then the index byte. -/
def add_items_entry (m : ModKey) (ec : Nat) (r : ModRel) : List Nat :=
  let eo : Int := (m.elemIdx : Int) - (r.elem_base : Int)
  if ec < 32 && eo < 4 && -5 < eo then
    let eo2 := if eo < 0 then eo + 8 else eo
    u8 (eo2.toNat ||| (r.idx_base <<< 3))
  else
    let eo2 := if eo < 0 then eo + 256 else eo
    u8 eo2.toNat ++ u8 r.idx_base

/-- Embedding of add_items_to_page: one entry per extension record whose
extension side is this model. -/
def add_items_to_page (rels : List ModRel) (m : ModKey) (ec : Nat) : List Nat :=
  (((activeRels rels).filter (fun r =>
      IS_MOD_EXTENSION m r && r.rtype == RELATION_TYPE_EXT)).map
    (add_items_entry m ec)).flatten

/-- Embedding of mod_items_size.  Note that the filter checks only
IS_MOD_EXTENSION, without the extension type test that add_items_to_page
applies, so correspondence records whose extension side is this model are
counted here although never emitted. -/
def mod_items_size (rels : List ModRel) (m : ModKey) : Nat :=
  let ec := (count_mod_ext rels m).1
  if ec = 0 then 0
  else
    ((activeRels rels).filter (IS_MOD_EXTENSION m)).foldl
      (fun t r =>
        let off : Int := (m.elemIdx : Int) - (r.elem_base : Int)
        t + (if ec < 32 && off < 4 && -5 < off then 1 else 2))
      0

/-- Bytes of one model item in page 1: the header from prep_model_item_header
followed, when the extension count is non-zero, by the extension entries. -/
def modelItemBytes (rels : List ModRel) (m : ModKey) : List Nat :=
  let ec := (count_mod_ext rels m).1
  prep_model_item_header rels m
    ++ (if ec ≠ 0 then add_items_to_page rels m ec else [])

/-- Model keys of an element in page-1 emission order: SIG models first with
their raw index, then vendor models with the SIG count as index offset. -/
def elemModKeys (elemIdx : Nat) (e : Elem0) : List ModKey :=
  ((List.range e.sigs.length).map (fun j => ModKey.mk elemIdx j))
    ++ ((List.range e.vnds.length).map (fun j => ModKey.mk elemIdx (e.sigs.length + j)))

/-- Embedding of page1_elem_size: two count bytes plus, per model, one or two
header bytes (correspondence) plus mod_items_size. -/
def page1_elem_size (rels : List ModRel) (elemIdx : Nat) (e : Elem0) : Nat :=
  (elemModKeys elemIdx e).foldl
    (fun t m =>
      t + (if (is_cor_present rels m).isSome then 2 else 1) + mod_items_size rels m)
    2

/-- Chunks written for one element of page 1: the two count bytes then each
model item (header, optional correspondence id, extension entries are separate
one-byte writes in C; chunk granularity does not affect the produced bytes). -/
def elem1Chunks (rels : List ModRel) (elemIdx : Nat) (e : Elem0) : List (List Nat) :=
  [u8 e.sigs.length, u8 e.vnds.length]
    ++ (elemModKeys elemIdx e).map (modelItemBytes rels)

/-- Element serialization of page 1 with unbounded tailroom and no offset. -/
def elem1Bytes (rels : List ModRel) (elemIdx : Nat) (e : Elem0) : List Nat :=
  (elem1Chunks rels elemIdx e).flatten

/-- Per-element unit of page 1: skip size page1_elem_size, body elem1Chunks. -/
def page1Elem (rels : List ModRel) (elemIdx : Nat) (e : Elem0) : PageElem :=
  ⟨page1_elem_size rels elemIdx e, elem1Chunks rels elemIdx e⟩

/-- Embedding of bt_mesh_comp_data_get_page_1 with allow_partial_elems = true. -/
def bt_mesh_comp_data_get_page_1 (c : Comp0) (rels : List ModRel) (cap off : Nat) : List Nat :=
  (elemsWrite cap ⟨off, []⟩ (c.elems.enum.map (fun p => page1Elem rels p.1 p.2))).out

/-- Full serialization of composition data page 1. -/
def page1Bytes (c : Comp0) (rels : List ModRel) : List Nat :=
  (c.elems.enum.map (fun p => elem1Bytes rels p.1 p.2)).flatten

/-- Embedding of comp_page_1_size. -/
def comp_page_1_size (c : Comp0) (rels : List ModRel) : Nat :=
  c.elems.enum.foldl (fun sz p => sz + page1_elem_size rels p.1 p.2) 0

/-! ### Page 2 -/

/-- One record of struct bt_mesh_comp2 (page 2): profile id, version triple,
element offsets and additional data. -/
structure Comp2Record where
  id : Nat
  vx : Nat
  vy : Nat
  vz : Nat
  elemOffsets : List Nat
  data : List Nat
deriving DecidableEq

/-- Record size used by bt_mesh_comp_data_get_page_2 for the skip:
8 + elem_offset_cnt + data_len. -/
def comp2RecordSize (r : Comp2Record) : Nat :=
  8 + r.elemOffsets.length + r.data.length

/-- Chunks written for one page-2 record: id (le16), version bytes, offset
count, the offset array (single add_mem), data length (le16), the data. -/
def comp2RecordChunks (r : Comp2Record) : List (List Nat) :=
  [le16 r.id, u8 r.vx, u8 r.vy, u8 r.vz, u8 r.elemOffsets.length,
   r.elemOffsets.map (fun b => b % 256),
   le16 r.data.length,
   r.data.map (fun b => b % 256)]

/-- Record serialization of page 2 with unbounded tailroom and no offset. -/
def comp2RecordBytes (r : Comp2Record) : List Nat :=
  (comp2RecordChunks r).flatten

/-- Per-record unit of page 2. -/
def page2Elem (r : Comp2Record) : PageElem :=
  ⟨comp2RecordSize r, comp2RecordChunks r⟩

/-- Embedding of bt_mesh_comp_data_get_page_2 with allow_partial_elems = true
and a registered page-2 descriptor. -/
def bt_mesh_comp_data_get_page_2 (rs : List Comp2Record) (cap off : Nat) : List Nat :=
  (elemsWrite cap ⟨off, []⟩ (rs.map page2Elem)).out

/-- Full serialization of composition data page 2. -/
def page2Bytes (rs : List Comp2Record) : List Nat :=
  (rs.map comp2RecordBytes).flatten

/-- Embedding of comp_page_2_size (descriptor registered). -/
def comp_page_2_size (rs : List Comp2Record) : Nat :=
  rs.foldl (fun sz r => sz + comp2RecordSize r) 0

/-! ### Streaming reassembly -/

/-- Successive bt_mesh_comp_data_get_page calls: each call produces bytes into
a fresh buffer with tailroom cap starting at the current offset, the offset
advances by the bytes written, and the stream ends when a call writes nothing.
Fuel bounds the recursion; any fuel past the page size is enough. -/
def streamPage (f : Nat → List Nat) : Nat → Nat → List Nat
  | 0, _ => []
  | fuel + 1, off =>
    let w := f off
    if w = [] then [] else w ++ streamPage f fuel (off + w.length)

/-! ### Errno constants (Zephyr/newlib numeric values; only their identity matters here) -/

/-- Errno value ENOENT. -/
def ENOENT : Int := 2

/-- Errno value EINVAL. -/
def EINVAL : Int := 22

/-- Errno value ENODEV. -/
def ENODEV : Int := 19

/-- Errno value EADDRNOTAVAIL. -/
def EADDRNOTAVAIL : Int := 125

/-- Errno value EMSGSIZE. -/
def EMSGSIZE : Int := 122

/-- Errno value ENOTSUP. -/
def ENOTSUP : Int := 134

/-! ### High-pages store (PAGE_TYPE_COMP; the metadata page is not needed by the claims) -/

/-- Settings records for the stored composition pages, one optional byte blob
per path of the stored_pages table (bt/mesh/cmp/128, /129, /130).  A present
list is the stored record value; none means no record. -/
structure StoredPages where
  cmp128 : Option (List Nat)
  cmp129 : Option (List Nat)
  cmp130 : Option (List Nat)
deriving DecidableEq

/-- Paths of the stored composition pages. -/
inductive CompPagePath
  | p128
  | p129
  | p130
deriving DecidableEq

/-- Embedding of stored_page_path for PAGE_TYPE_COMP with all page configs
enabled: pages 128, 129 and 130 have paths, others none. -/
def stored_page_path (page : Nat) : Option CompPagePath :=
  if page = 128 then some CompPagePath.p128
  else if page = 129 then some CompPagePath.p129
  else if page = 130 then some CompPagePath.p130
  else none

/-- Embedding of settings_save_one for a stored-page path. -/
def settings_save_one (st : StoredPages) (path : CompPagePath) (val : List Nat) : StoredPages :=
  match path with
  | CompPagePath.p128 => { st with cmp128 := some val }
  | CompPagePath.p129 => { st with cmp129 := some val }
  | CompPagePath.p130 => { st with cmp130 := some val }

/-- Stored record at a path, as settings_load_subtree_direct delivers it. -/
def settings_get (st : StoredPages) (path : CompPagePath) : Option (List Nat) :=
  match path with
  | CompPagePath.p128 => st.cmp128
  | CompPagePath.p129 => st.cmp129
  | CompPagePath.p130 => st.cmp130

/-- Whole device state for the composition-data functions: the live
composition, the relation table, the optional page-2 descriptor and the
stored high pages. -/
structure DevState where
  comp : Comp0
  rels : List ModRel
  comp2 : Option (List Comp2Record)
  stored : StoredPages

/-- Embedding of current_page_size for PAGE_TYPE_COMP: sizes of the live
pages 0, 1 and 2; 0 for other pages (and for page 2 with no descriptor). -/
def current_page_size (st : DevState) (page : Nat) : Nat :=
  if page = 0 then comp_page_0_size st.comp
  else if page = 1 then comp_page_1_size st.comp st.rels
  else if page = 2 then
    match st.comp2 with
    | some rs => comp_page_2_size rs
    | none => 0
  else 0

/-- Embedding of current_page_contents for PAGE_TYPE_COMP with
allow_partial_elems = true; the error values are -ENODEV for a missing page-2
descriptor and -ENOENT for an unknown page. -/
def current_page_contents (st : DevState) (cap : Nat) (page off : Nat) :
    Except Int (List Nat) :=
  if page = 0 then Except.ok (bt_mesh_comp_data_get_page_0 st.comp cap off)
  else if page = 1 then Except.ok (bt_mesh_comp_data_get_page_1 st.comp st.rels cap off)
  else if page = 2 then
    match st.comp2 with
    | some rs => Except.ok (bt_mesh_comp_data_get_page_2 rs cap off)
    | none => Except.error (-ENODEV)
  else Except.error (-ENOENT)

/-- Embedding of new_page_data_is_equal: the staged data equals the live page
page % 128 when the sizes match and the serialized live page (read into the
persistence buffer of capacity cap) compares equal.  The C memcmp reads
new_len bytes; the comparison is faithful whenever cap covers the page. -/
def new_page_data_is_equal (st : DevState) (cap : Nat) (page : Nat) (data : List Nat) : Bool :=
  let oldSize := current_page_size st (page % 128)
  if oldSize ≠ data.length then false
  else
    match current_page_contents st cap (page % 128) 0 with
    | Except.error _ => false
    | Except.ok buf => buf == data

/-- Embedding of stored_page_write (PAGE_TYPE_COMP, CONFIG_BT_SETTINGS on).
When the staged data equals the live page, the data pointer is nulled; a
zero-length write stores the one-byte sentinel 0x00; otherwise the record
stored is the data when the pointer is still set and an empty record when it
was nulled (settings_save_one is called with length data ? len : 0). -/
def stored_page_write (st : DevState) (cap : Nat) (page : Nat) (data : List Nat) :
    Except Int StoredPages :=
  match stored_page_path page with
  | none => Except.error (-ENOENT)
  | some path =>
    let dataOpt : Option (List Nat) :=
      if new_page_data_is_equal st cap page data then none else some data
    if data.length = 0 then Except.ok (settings_save_one st.stored path [0])
    else Except.ok (settings_save_one st.stored path (dataOpt.getD []))

/-- Embedding of stored_page_size_get: the stored record's length, except that
the settings size callback only records lengths above zero, so a missing or
empty record both give 0. -/
def stored_page_size_get (st : DevState) (page : Nat) : Nat :=
  match stored_page_path page with
  | none => 0
  | some path =>
    match settings_get st.stored path with
    | none => 0
    | some rec => if 0 < rec.length then rec.length else 0

/-- Embedding of page_size_get for PAGE_TYPE_COMP: for pages at least 128, a
stored size of exactly 1 (the sentinel) gives 0 and a larger stored size is
returned; otherwise the live size of page % 128. -/
def page_size_get (st : DevState) (page : Nat) : Nat :=
  if 128 ≤ page then
    let size := stored_page_size_get st page
    if size = 1 then 0
    else if 1 < size then size
    else current_page_size st (page % 128)
  else current_page_size st (page % 128)

/-- Embedding of bt_mesh_comp_page_size. -/
def bt_mesh_comp_page_size (st : DevState) (page : Nat) : Nat :=
  page_size_get st page

/-- Embedding of bt_mesh_comp_128_changed: a record of any size exists. -/
def bt_mesh_comp_128_changed (st : DevState) : Bool :=
  stored_page_size_get st 128 != 0

/-- Embedding of stored_page_read for PAGE_TYPE_COMP with
allow_partial_elems = true (the path taken by bt_mesh_comp_data_get_page): a
missing or empty record is -ENOENT, the one-byte 0x00 record is the empty-page
sentinel answered with zero bytes, an offset past the record also gives zero
bytes, and otherwise the clipped window of the record is produced.  The
element-boundary path (allow_partial_elems = false, write_cdp_elems) is not
needed by the claims and is not embedded. -/
def stored_page_read (st : DevState) (cap : Nat) (page off : Nat) :
    Except Int (List Nat) :=
  match stored_page_path page with
  | none => Except.error (-ENOENT)
  | some path =>
    match settings_get st.stored path with
    | none => Except.error (-ENOENT)
    | some rec =>
      if rec.length = 0 then Except.error (-ENOENT)
      else if rec = [0] then Except.ok []
      else if rec.length < off then Except.ok []
      else Except.ok (window rec off cap)

/-- Embedding of get_page_contents for PAGE_TYPE_COMP: pages at least 128 are
answered from the stored record unless it is absent (-ENOENT), in which case,
as for the low pages, the live page page % 128 is produced. -/
def get_page_contents (st : DevState) (cap : Nat) (page off : Nat) :
    Except Int (List Nat) :=
  if 128 ≤ page then
    match stored_page_read st cap page off with
    | Except.ok bs => Except.ok bs
    | Except.error e =>
      if e = -ENOENT then current_page_contents st cap (page % 128) off
      else Except.error e
  else current_page_contents st cap (page % 128) off

/-- Embedding of bt_mesh_comp_data_get_page (CONFIG_BT_MESH_LARGE_COMP_DATA_SRV
enabled): get_page_contents with allow_partial_elems = true. -/
def bt_mesh_comp_data_get_page (st : DevState) (cap : Nat) (page off : Nat) :
    Except Int (List Nat) :=
  get_page_contents st cap page off

/-! ### Page-128 element count -/

/-- Embedding of next_elem_size_cdp128: zero below the 4-byte element header,
else 4 + 2 per SIG model + 4 per vendor model from the count bytes. -/
def next_elem_size_cdp128 (b : List Nat) : Nat :=
  if b.length < 4 then 0
  else 4 + b.getD 2 0 * 2 + b.getD 3 0 * 4

/-- Element-walk loop of bt_mesh_comp_128_elem_count: while an element header
is available take its size; a header claiming more bytes than remain gives 0;
leftover bytes shorter than a header after the last complete element give 0.
Fuel bounds the recursion; b.length + 1 is always enough since each step
consumes at least 4 bytes. -/
def cdp128Walk (fuel : Nat) (b : List Nat) (count : Nat) : Nat :=
  match fuel with
  | 0 => 0
  | fuel + 1 =>
    let size := next_elem_size_cdp128 b
    if size = 0 then (if b.length ≠ 0 then 0 else count)
    else if b.length < size then 0
    else cdp128Walk fuel (b.drop size) (count + 1)

/-- Embedding of bt_mesh_comp_128_elem_count (CONFIG_BT_MESH_HIGH_DATA_PAGES and
CONFIG_BT_SETTINGS enabled): with no stored data (no record, or a record the
settings read left empty) the live element count is returned; otherwise the
stored blob is walked element by element. -/
def bt_mesh_comp_128_elem_count (st : DevState) : Nat :=
  let b := (settings_get st.stored CompPagePath.p128).getD []
  if b.length = 0 then st.comp.elems.length
  else cdp128Walk (b.length + 1) b 0

/-- Malformed page-128 blob, following the claim's wording: after any number
of complete elements, either an element header claims more bytes than remain,
or non-element garbage (a fragment shorter than a header) trails the data. -/
def cdp128MalformedAux (fuel : Nat) (b : List Nat) : Bool :=
  match fuel with
  | 0 => true
  | fuel + 1 =>
    if b.length = 0 then false
    else
      let size := next_elem_size_cdp128 b
      if size = 0 then true
      else if b.length < size then true
      else cdp128MalformedAux fuel (b.drop size)

/-- Malformed page-128 blob with the canonical fuel. -/
def cdp128Malformed (b : List Nat) : Bool :=
  cdp128MalformedAux (b.length + 1) b

/-! ### Opcode decoding -/

/-- Embedding of get_opcode: decode by the top two bits of the leading byte,
returning the opcode and the remaining payload, or none on the reject paths.
The C reads data[0] unconditionally (callers guarantee a non-empty buffer);
the empty buffer is mapped to none here and the theorems quantify over
non-empty buffers.  The wildcard arm mirrors CODE_UNREACHABLE: it cannot be
reached when the leading byte is an actual byte value. -/
def get_opcode : List Nat → Option (Nat × List Nat)
  | [] => none
  | b0 :: rest =>
    if b0 >>> 6 = 0 ∨ b0 >>> 6 = 1 then
      if b0 = 0x7f then none
      else some (b0, rest)
    else if b0 >>> 6 = 2 then
      match rest with
      | [] => none
      | b1 :: rest2 => some ((b0 <<< 8) ||| b1, rest2)
    else if b0 >>> 6 = 3 then
      match rest with
      | b1 :: b2 :: rest3 => some ((b0 <<< 16) ||| (b1 ||| (b2 <<< 8)), rest3)
      | _ => none
    else none

/-! ### Receive path -/

/-- Access-layer status codes surfaced by the dispatcher. -/
inductive AccessStatus
  | success
  | invalidAddress
  | wrongOpcode
  | wrongKey
  | messageNotUnderstood
deriving DecidableEq

/-- One opcode handler entry (struct bt_mesh_model_op): the opcode, the length
contract (non-negative for a minimum, negative for an exact length), and the
handler's return value, which is all the dispatcher observes of the handler. -/
structure Op where
  opcode : Nat
  len : Int
  funcErr : Int
deriving DecidableEq

/-- Reference to a model inside the composition: element index, vendor flag,
index in that element's list.  Used for the extension-ring next links. -/
structure MRef where
  elemIdx : Nat
  isVnd : Bool
  modIdx : Nat
deriving DecidableEq

/-- Receive-path view of a model: vendor company id, opcode table, bound app
key indices, subscribed group addresses, subscribed virtual-label ids, and the
extension-ring link. -/
structure RModel where
  company : Nat
  ops : List Op
  keys : List Nat
  groups : List Nat
  uuids : List (Option Nat)
  next : Option MRef
deriving DecidableEq

/-- Receive-path view of an element: its unicast address and its SIG and
vendor model lists. -/
structure RElem where
  addr : Nat
  sigs : List RModel
  vnds : List RModel
deriving DecidableEq

/-- Receive-path composition. -/
structure RComp where
  elems : List RElem
deriving DecidableEq

/-- Empty element used as lookup default. -/
def emptyRElem : RElem := ⟨0, [], []⟩

/-- Model lookup by reference. -/
def modelAt (c : RComp) (ref : MRef) : Option RModel :=
  match c.elems.get? ref.elemIdx with
  | none => none
  | some e => (if ref.isVnd then e.vnds else e.sigs).get? ref.modIdx

/-- Primary address: address of element 0 (dev_comp->elem[0].rt->addr). -/
def primaryAddr (c : RComp) : Nat :=
  (c.elems.headD emptyRElem).addr

/-- Modelled from the spec: unicast address test (BT_MESH_ADDR_IS_UNICAST from
the mesh headers; a non-zero address below 0x8000). -/
def BT_MESH_ADDR_IS_UNICAST (a : Nat) : Bool :=
  a != 0 && a < 0x8000

/-- Modelled from the spec: virtual address test (the 0x8000-0xBFFF block). -/
def BT_MESH_ADDR_IS_VIRTUAL (a : Nat) : Bool :=
  0x8000 ≤ a && a < 0xC000

/-- Modelled from the spec: group address test (0xC000 up to the fixed-group
block). -/
def BT_MESH_ADDR_IS_GROUP (a : Nat) : Bool :=
  0xC000 ≤ a && a < 0xFF00

/-- Modelled from the spec: fixed group address test (0xFF00 and above). -/
def BT_MESH_ADDR_IS_FIXED_GROUP (a : Nat) : Bool :=
  0xFF00 ≤ a && a ≤ 0xFFFF

/-- Modelled from the spec: bound-key sentinel and device-key wildcard values
from the mesh headers. -/
def BT_MESH_KEY_DEV : Nat := 0xFFFE

/-- Modelled from the spec: remote device key value. -/
def BT_MESH_KEY_DEV_REMOTE : Nat := 0xFFFD

/-- Modelled from the spec: any-device-key wildcard value. -/
def BT_MESH_KEY_DEV_ANY : Nat := 0xFFFC

/-- Modelled from the spec: device key test. -/
def BT_MESH_IS_DEV_KEY (k : Nat) : Bool :=
  k = BT_MESH_KEY_DEV || k = BT_MESH_KEY_DEV_REMOTE

/-- Embedding of bt_mesh_model_has_key: a bound entry equals the key, or is
the any-device-key wildcard while the key is a device key. -/
def bt_mesh_model_has_key (m : RModel) (key : Nat) : Bool :=
  m.keys.any (fun k => k == key || (k == BT_MESH_KEY_DEV_ANY && BT_MESH_IS_DEV_KEY key))

/-- Embedding of model_group_get as a membership test. -/
def model_group_get (m : RModel) (addr : Nat) : Bool :=
  m.groups.any (fun g => g == addr)

/-- Extension-ring search implementing bt_mesh_model_extensions_walk with the
find_group/find_uuid visitors: visit the start model, then follow next links
until the walk returns to the start; a visited model counts only when it sits
on the same element as the start.  Fuel bounds the walk (the C relies on ring
well-formedness); the total model count plus one is always enough fuel. -/
def ringSearch (c : RComp) (startRef : MRef) (check : RModel → Bool) :
    Nat → MRef → Bool
  | 0, _ => false
  | fuel + 1, cur =>
    match modelAt c cur with
    | none => false
    | some m =>
      if cur.elemIdx = startRef.elemIdx && check m then true
      else
        match m.next with
        | none => false
        | some nxt => if nxt = startRef then false else ringSearch c startRef check fuel nxt

/-- Embedding of bt_mesh_model_find_group as a test: some model in the
extension ring on the same element subscribes to the group address. -/
def bt_mesh_model_find_group (c : RComp) (ref : MRef) (addr : Nat) : Bool :=
  ringSearch c ref (fun m => model_group_get m addr)
    ((c.elems.map (fun e => e.sigs.length + e.vnds.length)).sum + 1) ref

/-- Embedding of bt_mesh_model_find_uuid as a test (label pointers become
label ids; CONFIG_BT_MESH_LABEL_COUNT positive). -/
def bt_mesh_model_find_uuid (c : RComp) (ref : MRef) (uuid : Option Nat) : Bool :=
  ringSearch c ref (fun m => m.uuids.any (fun u => u == uuid))
    ((c.elems.map (fun e => e.sigs.length + e.vnds.length)).sum + 1) ref

/-- Embedding of model_has_dst for the model found by find_op. -/
def model_has_dst (c : RComp) (ref : MRef) (dst : Nat) (uuid : Option Nat) : Bool :=
  if BT_MESH_ADDR_IS_UNICAST dst then
    (c.elems.getD ref.elemIdx emptyRElem).addr == dst
  else if BT_MESH_ADDR_IS_VIRTUAL dst then
    bt_mesh_model_find_uuid c ref uuid
  else if BT_MESH_ADDR_IS_GROUP dst || (BT_MESH_ADDR_IS_FIXED_GROUP dst && ref.elemIdx != 0) then
    bt_mesh_model_find_group c ref dst
  else
    ref.elemIdx == 0

/-- Modelled from the spec: opcode wire length (BT_MESH_MODEL_OP_LEN). -/
def BT_MESH_MODEL_OP_LEN (op : Nat) : Nat :=
  if op ≤ 0xff then 1 else if op ≤ 0xffff then 2 else 3

/-- Embedding of find_op: choose the SIG list for 1-2 octet opcodes and the
vendor list for 3-octet opcodes, scan models in order and each model's opcode
table in order, first exact match wins
(CONFIG_BT_MESH_MODEL_VND_MSG_CID_FORCE disabled, so no company filter). -/
def find_op (c : RComp) (elemIdx : Nat) (opcode : Nat) : Option (MRef × RModel × Op) :=
  let e := c.elems.getD elemIdx emptyRElem
  if BT_MESH_MODEL_OP_LEN opcode < 3 then
    e.sigs.enum.findSome? (fun p =>
      (p.2.ops.find? (fun op => op.opcode == opcode)).map
        (fun op => (MRef.mk elemIdx false p.1, p.2, op)))
  else
    e.vnds.enum.findSome? (fun p =>
      (p.2.ops.find? (fun op => op.opcode == opcode)).map
        (fun op => (MRef.mk elemIdx true p.1, p.2, op)))

/-- Message context fields used by the dispatcher. -/
structure RecvCtx where
  app_idx : Nat
  recv_dst : Nat
  uuid : Option Nat
deriving DecidableEq

/-- Embedding of element_model_recv: opcode lookup, key binding check,
destination check, payload length contract, then the handler, whose non-zero
return maps to MESSAGE_NOT_UNDERSTOOD. -/
def element_model_recv (c : RComp) (ctx : RecvCtx) (bufLen : Nat) (elemIdx : Nat)
    (opcode : Nat) : AccessStatus :=
  match find_op c elemIdx opcode with
  | none => AccessStatus.wrongOpcode
  | some (ref, m, op) =>
    if ¬ bt_mesh_model_has_key m ctx.app_idx then AccessStatus.wrongKey
    else if ¬ model_has_dst c ref ctx.recv_dst ctx.uuid then AccessStatus.invalidAddress
    else if 0 ≤ op.len ∧ (bufLen : Int) < op.len then AccessStatus.messageNotUnderstood
    else if op.len < 0 ∧ (bufLen : Int) ≠ -op.len then AccessStatus.messageNotUnderstood
    else if op.funcErr ≠ 0 then AccessStatus.messageNotUnderstood
    else AccessStatus.success

/-- Element index for a unicast destination: the uint16 difference between the
destination and the primary address (ctx->recv_dst - dev_comp->elem[0].rt->addr
in uint16_t arithmetic). -/
def unicastIndex (c : RComp) (dst : Nat) : Nat :=
  (dst + 65536 - primaryAddr c % 65536) % 65536

/-- Embedding of bt_mesh_model_recv (CONFIG_BT_MESH_ACCESS_LAYER_MSG enabled;
msgCbRegistered says whether a raw-message callback is set).  Returns the
aggregated status and whether the raw-message callback was invoked.  For a
unicast destination the element index is the uint16 difference to the primary
address; out of range returns INVALID_ADDRESS before the callback point.
Otherwise every element is tried and the status starts from
MESSAGE_NOT_UNDERSTOOD, replaced only by a SUCCESS from some element. -/
def bt_mesh_model_recv (c : RComp) (msgCbRegistered : Bool) (ctx : RecvCtx)
    (buf : List Nat) : AccessStatus × Bool :=
  match get_opcode buf with
  | none => (AccessStatus.wrongOpcode, false)
  | some (opcode, rest) =>
    if BT_MESH_ADDR_IS_UNICAST ctx.recv_dst then
      if c.elems.length ≤ unicastIndex c ctx.recv_dst then (AccessStatus.invalidAddress, false)
      else (element_model_recv c ctx rest.length (unicastIndex c ctx.recv_dst) opcode,
            msgCbRegistered)
    else
      ((List.range c.elems.length).foldl
        (fun err i =>
          let errElem := element_model_recv c ctx rest.length i opcode
          if errElem = AccessStatus.success then errElem else err)
        AccessStatus.messageNotUnderstood,
       msgCbRegistered)

/-! ### Relation graph operations -/

/-- Embedding of mod_rel_register: the record is written into the first free
slot of the table, which for the table modeled as the list of occupied slots
is an append.  The stored coordinates are the uint8 element index and the
sig-offset-shifted uint8 model index of base and extension models. -/
def mod_rel_register (rels : List ModRel) (base ext : ModKey) (ty : Nat) : List ModRel :=
  rels ++ [⟨base.elemIdx % 256, base.idx % 256, ext.elemIdx % 256, ext.idx % 256, ty % 256⟩]

/-- Embedding of bt_mesh_model_correspond (MOD_REL_LIST_SIZE positive): scan
the active records once, tracking the maximum correspondence id; the first
record referencing either model with a type below 0xFF short-circuits into a
registration reusing that id; otherwise the tracked maximum itself is
registered.  Arguments follow the C parameter order
(corresponding_mod, base_mod); the registered record has the base model on the
base side and the corresponding model on the extension side. -/
def bt_mesh_model_correspond (rels : List ModRel) (corresponding base : ModKey) :
    List ModRel :=
  let act := activeRels rels
  match act.find? (fun r =>
      (IS_MOD_BASE base r || IS_MOD_EXTENSION base r ||
       IS_MOD_BASE corresponding r || IS_MOD_EXTENSION corresponding r) &&
      r.rtype < RELATION_TYPE_EXT) with
  | some r => mod_rel_register rels base corresponding r.rtype
  | none =>
    let cor_id := act.foldl
      (fun cid r => if r.rtype < RELATION_TYPE_EXT && cid < r.rtype then r.rtype else cid) 0
    mod_rel_register rels base corresponding cor_id

/-- Ring state for bt_mesh_model_extend: models named by ids, the next link of
each model and its EXTENDED flag. -/
structure RingState where
  next : Nat → Option Nat
  extended : Nat → Bool

/-- Containment loop of bt_mesh_model_extend: for (it = a; it != NULL and
it->next != a; it = it->next) body tests it == b.  The loop condition is
checked before the body, so a model whose next link is a is never tested.
Fuel bounds the walk; any fuel at least the ring length reproduces the C. -/
def extendContainsLoop (st : RingState) (a b : Nat) : Nat → Option Nat → Bool
  | 0, _ => false
  | _, none => false
  | fuel + 1, some cur =>
    if st.next cur = some a then false
    else if cur = b then true
    else extendContainsLoop st a b fuel (st.next cur)

/-- Embedding of bt_mesh_model_extend (MOD_REL_LIST_SIZE positive): mark the
base EXTENDED, return if extending equals base, search the extending model's
list for the base, otherwise merge the two next-lists, and in both cases
register an extension relation via mod_rel_register.  The key function maps a
model id to its relation-table coordinates (sig offset already applied). -/
def bt_mesh_model_extend (st : RingState) (rels : List ModRel) (key : Nat → ModKey)
    (fuel : Nat) (extending base : Nat) : RingState × List ModRel :=
  let st1 : RingState :=
    { st with extended := fun m => if m = base then true else st.extended m }
  if extending = base then (st1, rels)
  else
    let aNext := st.next extending
    let bNext := st.next base
    if extendContainsLoop st1 extending base fuel (some extending) then
      (st1, mod_rel_register rels (key base) (key extending) RELATION_TYPE_EXT)
    else
      let st2 : RingState :=
        { st1 with next := fun m =>
            if m = base then some (aNext.getD extending)
            else if m = extending then some (bNext.getD base)
            else st1.next m }
      (st2, mod_rel_register rels (key base) (key extending) RELATION_TYPE_EXT)

/-! ### Publication trigger -/

/-- Short MIC size reserved alongside the published message (BT_MESH_MIC_SHORT). -/
def BT_MESH_MIC_SHORT : Nat := 4

/-- Long random-delay window span (RANDOM_DELAY_LONG; the C comment reads
20 - 500 ms). -/
def RANDOM_DELAY_LONG : Nat := 480

/-- Short random-delay window span (RANDOM_DELAY_SHORT). -/
def RANDOM_DELAY_SHORT : Nat := 30

/-- Modelled from the spec: retransmit-count field of the retransmit byte
(BT_MESH_PUB_TRANSMIT_COUNT, the three least significant bits). -/
def BT_MESH_PUB_TRANSMIT_COUNT (tr : Nat) : Nat := tr % 8

/-- Publication state fields used by bt_mesh_model_publish. -/
structure PubState where
  addr : Nat
  msg : Option (List Nat)
  retransmit : Nat
  delayable : Bool
  count : Nat
  period_start : Nat
deriving DecidableEq

/-- Modelled from the spec: total message count 1 + retransmit count
(BT_MESH_PUB_MSG_TOTAL). -/
def BT_MESH_PUB_MSG_TOTAL (p : PubState) : Nat :=
  BT_MESH_PUB_TRANSMIT_COUNT p.retransmit + 1

/-- Embedding of pub_delay_get (CONFIG_BT_MESH_DELAYABLE_PUBLICATION enabled):
20 plus a 16-bit random value reduced modulo the window span. -/
def pub_delay_get (randWindow rand : Nat) : Nat :=
  20 + rand % 65536 % randWindow

/-- How the first transmission is scheduled by bt_mesh_model_publish. -/
inductive PubSched
  | delayed (ms : Nat)
  | immediate
deriving DecidableEq

/-- Embedding of bt_mesh_model_publish: validity checks (publication present,
address assigned, message present and non-empty, message plus MIC within the
maximum SDU), then count := 1 + retransmit count and period_start := now, and
the first transmission is scheduled after pub_delay_get over the long window
when delayable (pub_delay_schedule succeeding), immediately otherwise. -/
def bt_mesh_model_publish (pub : Option PubState) (sduMax now rand : Nat) :
    Except Int (PubState × PubSched) :=
  match pub with
  | none => Except.error (-ENOTSUP)
  | some p =>
    if p.addr = 0 then Except.error (-EADDRNOTAVAIL)
    else
      match p.msg with
      | none => Except.error (-EINVAL)
      | some msg =>
        if msg.length = 0 then Except.error (-EINVAL)
        else if sduMax < msg.length + BT_MESH_MIC_SHORT then Except.error (-EMSGSIZE)
        else
          let p' := { p with count := BT_MESH_PUB_MSG_TOTAL p, period_start := now }
          if p.delayable then
            Except.ok (p', PubSched.delayed (pub_delay_get RANDOM_DELAY_LONG rand))
          else Except.ok (p', PubSched.immediate)

/-! ### Concrete states used by the claim-level theorems -/

/-- Composition of spec scenario 1: one element, one SIG model 0x1000,
CID 0x01AB, PID 2, VID 3, CRPL 5, relay feature set. -/
def c1Comp : Comp0 := ⟨0x01AB, 2, 3, 5, 1, [⟨7, [0x1000], []⟩]⟩

/-- Device state around c1Comp with nothing stored. -/
def c1State : DevState := ⟨c1Comp, [], none, ⟨none, none, none⟩⟩

/-- Device state around c1Comp after the high-pages write of the staged page
128 whose data equals the live page 0. -/
def c1StateAfter : DevState := ⟨c1Comp, [], none, ⟨some [], none, none⟩⟩

/-- Relation table with one correspondence group, id 3, between the models
(0,0) and (0,1). -/
def c2Rels : List ModRel := [⟨0, 0, 0, 1, 3⟩]

/-- Relation table where the model at element 3, index 0 extends the base
model at element 0, index 0. -/
def c3Rels : List ModRel := [⟨0, 0, 3, 0, 255⟩]

/-- Element holding exactly one SIG model. -/
def c3Elem : Elem0 := ⟨0, [0x1234], []⟩

/-- Receive-path model bound to app key 7, with a single handler for the
one-octet opcode 5 and no subscriptions. -/
def c4Model : RModel := ⟨0, [⟨5, 0, 0⟩], [7], [], [], none⟩

/-- Composition of one element at unicast address 1 holding c4Model. -/
def c4Comp : RComp := ⟨[⟨1, [c4Model], []⟩]⟩

/-- Context of a message to group address 0xC000 with app key 7. -/
def c4Ctx : RecvCtx := ⟨7, 0xC000, none⟩

/-- Composition of one element at unicast address 1 for the raw-callback
claim. -/
def c5Comp : RComp := ⟨[⟨1, [⟨0, [⟨5, 0, 0⟩], [7], [], [], none⟩], []⟩]⟩

/-- Two-element composition whose first element has two SIG models, the second
of which both extends the first (type 0xFF) and corresponds with it (type 0),
making mod_items_size overcount; the second element has one SIG model. -/
def c7Comp : Comp0 := ⟨1, 2, 3, 4, 0, [⟨0, [0x10, 0x11], []⟩, ⟨0, [0x12], []⟩]⟩

/-- Relation table for c7Comp: an extension record and a correspondence record,
both with the model (0,1) on the extension side and (0,0) as base. -/
def c7Rels : List ModRel := [⟨0, 0, 0, 1, 255⟩, ⟨0, 0, 0, 1, 0⟩]

/-- One-element composition with one SIG and one vendor model used as the
streaming witness. -/
def c7wComp : Comp0 := ⟨1, 2, 3, 4, 5, [⟨6, [0x10], [(0x59, 0x2)]⟩]⟩

/-- Single page-2 record used as the streaming witness. -/
def c7wRs : List Comp2Record := [⟨1, 2, 3, 4, [9], [8, 7]⟩]

/-- Ring state with no links and no flags. -/
def c8Ring0 : RingState := ⟨fun _ => none, fun _ => false⟩

/-- Model coordinates for the extend fixtures: model m lives at element 0,
index m. -/
def c8Key : Nat → ModKey := fun m => ⟨0, m⟩

/-- First extend(1, 0) call from the fresh state. -/
def c8First : RingState × List ModRel := bt_mesh_model_extend c8Ring0 [] c8Key 5 1 0

/-- Second extend(1, 0) call with the same pair. -/
def c8Second : RingState × List ModRel := bt_mesh_model_extend c8First.1 c8First.2 c8Key 5 1 0

/-- Publication state with address 1, a 3-byte message, retransmit byte 0x2A
(count 2, interval steps 5) and the delayable bit set. -/
def c9Pub : PubState := ⟨1, some [1, 2, 3], 0x2A, true, 0, 0⟩

/-- Device state with one empty element and no stored page 128. -/
def c10StateNone : DevState := ⟨⟨0, 0, 0, 0, 0, [⟨0, [], []⟩]⟩, [], none, ⟨none, none, none⟩⟩

/-- Device state with one empty element and the stored page-128 blob [0],
whose single byte is shorter than an element header. -/
def c10StateBad : DevState := ⟨⟨0, 0, 0, 0, 0, [⟨0, [], []⟩]⟩, [], none, ⟨some [0], none, none⟩⟩

/-! ## Lemmas: streaming writes produce windows of the full serialization -/

theorem window_append (A B : List Nat) (off k : Nat) :
    window (A ++ B) off k
      = window A off k ++ window B (off - A.length) (k - (A.length - off)) := by
  unfold window
  rw [List.drop_append_eq_append_drop, List.take_append_eq_append_take, List.length_drop]

theorem window_length (A : List Nat) (off k : Nat) :
    (window A off k).length = min k (A.length - off) := by
  simp [window]

theorem window_zero (A : List Nat) (off : Nat) : window A off 0 = [] := by
  simp [window]

theorem window_past (A : List Nat) (off k : Nat) (h : A.length ≤ off) :
    window A off k = [] := by
  simp [window, List.drop_eq_nil_of_le h]

theorem data_buf_add_mem_offset_spec (cap : Nat) (s : WSt) (d : List Nat) :
    data_buf_add_mem_offset cap s d
      = ⟨s.off - d.length, s.out ++ window d s.off (cap - s.out.length)⟩ := by
  unfold data_buf_add_mem_offset
  by_cases h : d.length ≤ s.off
  · simp [h, window_past d s.off _ h]
  · have h0 : s.off - d.length = 0 := by omega
    simp [h, h0, window]

theorem writeChunks_spec (cap : Nat) (cs : List (List Nat)) :
    ∀ off out, writeChunks cap ⟨off, out⟩ cs
      = ⟨off - cs.flatten.length, out ++ window cs.flatten off (cap - out.length)⟩ := by
  induction cs with
  | nil => intro off out; simp [writeChunks, window]
  | cons d cs ih =>
    intro off out
    have h1 : writeChunks cap ⟨off, out⟩ (d :: cs)
        = writeChunks cap (data_buf_add_mem_offset cap ⟨off, out⟩ d) cs := rfl
    rw [h1, data_buf_add_mem_offset_spec, ih]
    have hw := window_length d off (cap - out.length)
    have hflat : (d :: cs).flatten = d ++ cs.flatten := rfl
    rw [hflat, window_append]
    have hk : cap - (out ++ window d off (cap - out.length)).length
        = cap - out.length - (d.length - off) := by
      rw [List.length_append]; omega
    rw [hk, List.append_assoc]
    have hoff : off - d.length - cs.flatten.length = off - (d ++ cs.flatten).length := by
      rw [List.length_append]; omega
    rw [hoff]

theorem elemsWrite_full (cap : Nat) (es : List PageElem) :
    ∀ s : WSt, cap ≤ s.out.length → (elemsWrite cap s es).out = s.out := by
  induction es with
  | nil => intro s _; rfl
  | cons e es ih =>
    intro s h
    have h1 : elemsWrite cap s (e :: es) = elemsWrite cap (elemStep cap s e) es := rfl
    have h2 : cap - s.out.length = 0 := by omega
    have hstep : elemStep cap s e = ⟨s.off - e.claimed, s.out⟩ ∨ elemStep cap s e = s := by
      unfold elemStep
      by_cases hc : e.claimed ≤ s.off
      · left; simp [hc]
      · right; simp [hc, h2]
    rw [h1]
    rcases hstep with hs | hs <;> rw [hs]
    · exact ih _ h
    · exact ih _ h

theorem elemsWrite_spec (cap : Nat) (es : List PageElem)
    (hx : ∀ e ∈ es, e.claimed = e.chunks.flatten.length) :
    ∀ off out, (elemsWrite cap ⟨off, out⟩ es).out
      = out ++ window ((es.map (fun e => e.chunks.flatten)).flatten) off (cap - out.length) := by
  induction es with
  | nil => intro off out; simp [elemsWrite, window]
  | cons e es ih =>
    intro off out
    have hxe : e.claimed = e.chunks.flatten.length := hx e (by simp)
    have hxs : ∀ e' ∈ es, e'.claimed = e'.chunks.flatten.length := by
      intro e' h'; exact hx e' (by simp [h'])
    have h1 : elemsWrite cap ⟨off, out⟩ (e :: es)
        = elemsWrite cap (elemStep cap ⟨off, out⟩ e) es := rfl
    have hflat : ((e :: es).map (fun e => e.chunks.flatten)).flatten
        = e.chunks.flatten ++ (es.map (fun e => e.chunks.flatten)).flatten := by
      simp
    rw [h1, hflat, window_append]
    by_cases hc : e.claimed ≤ off
    · have hstep : elemStep cap ⟨off, out⟩ e = ⟨off - e.claimed, out⟩ := by
        unfold elemStep; simp [hc]
      rw [hstep, ih hxs]
      have hpast : window e.chunks.flatten off (cap - out.length) = [] :=
        window_past _ _ _ (by omega)
      have hsub : e.chunks.flatten.length - off = 0 := by omega
      rw [hpast, hsub, hxe]
      simp
    · by_cases hfull : cap - out.length = 0
      · have hstep : elemStep cap ⟨off, out⟩ e = ⟨off, out⟩ := by
          unfold elemStep; simp [hc, hfull]
        rw [hstep, elemsWrite_full cap es ⟨off, out⟩ (by simp; omega)]
        rw [hfull, window_zero, Nat.zero_sub, window_zero]
        simp
      · have hstep : elemStep cap ⟨off, out⟩ e = writeChunks cap ⟨off, out⟩ e.chunks := by
          unfold elemStep; simp [hc, hfull]
        rw [hstep, writeChunks_spec, ih hxs]
        have hw := window_length e.chunks.flatten off (cap - out.length)
        have hk : cap - (out ++ window e.chunks.flatten off (cap - out.length)).length
            = cap - out.length - (e.chunks.flatten.length - off) := by
          rw [List.length_append]; omega
        rw [hk, List.append_assoc]

/-! ## Lemmas: page serializations are exact element by element -/

theorem sig_chunks_length (l : List Nat) : ((l.map le16).flatten).length = l.length * 2 := by
  induction l with
  | nil => rfl
  | cons a l ih =>
    simp only [List.map_cons, List.flatten_cons, List.length_append, ih, le16]
    simp; omega

theorem vnd_chunks_length (v : List (Nat × Nat)) :
    (((v.map (fun p => [le16 p.1, le16 p.2])).flatten).flatten).length = v.length * 4 := by
  induction v with
  | nil => rfl
  | cons p v ih =>
    have h1 : ((p :: v).map (fun p => [le16 p.1, le16 p.2])).flatten
        = [le16 p.1, le16 p.2] ++ (v.map (fun p => [le16 p.1, le16 p.2])).flatten := rfl
    rw [h1, List.flatten_append, List.length_append, ih]
    simp only [List.flatten_cons, List.flatten_nil, List.append_nil, List.length_append,
      le16, List.length_cons, List.length_nil]
    omega

theorem page0_elem_exact (e : Elem0) :
    bt_mesh_comp_elem_size e = (elem0Chunks e).flatten.length := by
  unfold bt_mesh_comp_elem_size elem0Chunks
  rw [List.flatten_append, List.flatten_append, List.length_append, List.length_append]
  rw [sig_chunks_length, vnd_chunks_length]
  simp [le16, u8]

theorem page2_record_exact (r : Comp2Record) :
    comp2RecordSize r = (comp2RecordChunks r).flatten.length := by
  simp [comp2RecordSize, comp2RecordChunks, le16, u8]
  omega

/-! ## Lemmas: each producer call emits a window of the full page -/

theorem page0_window (c : Comp0) (cap off : Nat) :
    bt_mesh_comp_data_get_page_0 c cap off = window (page0Bytes c) off cap := by
  unfold bt_mesh_comp_data_get_page_0 page0Bytes
  rw [writeChunks_spec]
  have hx : ∀ e ∈ c.elems.map comp_add_elem, e.claimed = e.chunks.flatten.length := by
    intro pe hpe
    rcases List.mem_map.mp hpe with ⟨e, _, rfl⟩
    exact page0_elem_exact e
  have hmm : (c.elems.map comp_add_elem).map (fun e => e.chunks.flatten)
      = c.elems.map elem0Bytes := by
    rw [List.map_map]; rfl
  have h2 := elemsWrite_spec cap (c.elems.map comp_add_elem) hx
  simp only [List.nil_append, List.length_nil, Nat.sub_zero] at *
  rw [h2, hmm, window_append]
  have hw := window_length (page0HeaderChunks c).flatten off cap
  have hk : cap - (window (page0HeaderChunks c).flatten off cap).length
      = cap - ((page0HeaderChunks c).flatten.length - off) := by omega
  rw [hk]

theorem page1_window (c : Comp0) (rels : List ModRel) (cap off : Nat)
    (hx : ∀ p ∈ c.elems.enum, page1_elem_size rels p.1 p.2 = (elem1Bytes rels p.1 p.2).length) :
    bt_mesh_comp_data_get_page_1 c rels cap off = window (page1Bytes c rels) off cap := by
  unfold bt_mesh_comp_data_get_page_1 page1Bytes
  have hx' : ∀ e ∈ c.elems.enum.map (fun p => page1Elem rels p.1 p.2),
      e.claimed = e.chunks.flatten.length := by
    intro pe hpe
    rcases List.mem_map.mp hpe with ⟨p, hp, rfl⟩
    exact hx p hp
  have hmm : (c.elems.enum.map (fun p => page1Elem rels p.1 p.2)).map
        (fun e => e.chunks.flatten)
      = c.elems.enum.map (fun p => elem1Bytes rels p.1 p.2) := by
    rw [List.map_map]; rfl
  have h2 := elemsWrite_spec cap (c.elems.enum.map (fun p => page1Elem rels p.1 p.2)) hx' off []
  simp only [List.nil_append, List.length_nil, Nat.sub_zero] at h2
  rw [h2, hmm]

theorem page2_window (rs : List Comp2Record) (cap off : Nat) :
    bt_mesh_comp_data_get_page_2 rs cap off = window (page2Bytes rs) off cap := by
  unfold bt_mesh_comp_data_get_page_2 page2Bytes
  have hx : ∀ e ∈ rs.map page2Elem, e.claimed = e.chunks.flatten.length := by
    intro pe hpe
    rcases List.mem_map.mp hpe with ⟨r, _, rfl⟩
    exact page2_record_exact r
  have hmm : (rs.map page2Elem).map (fun e => e.chunks.flatten)
      = rs.map comp2RecordBytes := by
    rw [List.map_map]; rfl
  have h2 := elemsWrite_spec cap (rs.map page2Elem) hx off []
  simp only [List.nil_append, List.length_nil, Nat.sub_zero] at h2
  rw [h2, hmm]

/-! ## Lemmas: concatenating successive calls reassembles the page -/

theorem drop_min_length (L : List Nat) (cap : Nat) :
    L.drop (min cap L.length) = L.drop cap := by
  rcases le_total cap L.length with h | h
  · rw [min_eq_left h]
  · rw [min_eq_right h, List.drop_eq_nil_of_le (le_refl _), List.drop_eq_nil_of_le h]

theorem streamPage_spec (cap : Nat) (bs : List Nat) (f : Nat → List Nat)
    (hf : ∀ o, f o = window bs o cap) (hcap : 0 < cap) :
    ∀ fuel off, off ≤ bs.length → bs.length - off < fuel →
      streamPage f fuel off = bs.drop off := by
  intro fuel
  induction fuel with
  | zero => intro off h1 h2; omega
  | succ fuel ih =>
    intro off h1 h2
    have hunf : streamPage f (fuel + 1) off
        = if f off = [] then [] else f off ++ streamPage f fuel (off + (f off).length) := rfl
    rw [hunf]
    by_cases hoff : bs.length ≤ off
    · have hend : f off = [] := by rw [hf off]; exact window_past bs off cap hoff
      rw [if_pos hend, List.drop_eq_nil_of_le hoff]
    · have hlt : off < bs.length := by omega
      have hwlen : (f off).length = min cap (bs.length - off) := by
        rw [hf off]; exact window_length bs off cap
      have hne : f off ≠ [] := by
        intro h
        rw [h] at hwlen
        simp at hwlen
        omega
      rw [if_neg hne, ih (off + (f off).length) (by omega) (by omega)]
      have hw : f off = (bs.drop off).take cap := by rw [hf off]; rfl
      rw [hw, ← List.drop_drop ((bs.drop off).take cap).length off bs]
      rw [List.length_take, drop_min_length, List.take_append_drop]

/-! ## Lemmas: status aggregation over elements -/

theorem recvFold_no_success (f : Nat → AccessStatus) (n : Nat) (init : AccessStatus)
    (h : ∀ i, i < n → f i ≠ AccessStatus.success) :
    (List.range n).foldl
      (fun err i => if f i = AccessStatus.success then f i else err) init = init := by
  induction n with
  | zero => rfl
  | succ n ih =>
    rw [List.range_succ, List.foldl_append]
    rw [ih (fun i hi => h i (by omega))]
    simp [h n (by omega)]

theorem recvFold_success (f : Nat → AccessStatus) (n : Nat) (init : AccessStatus)
    (h : ∃ i, i < n ∧ f i = AccessStatus.success) :
    (List.range n).foldl
      (fun err i => if f i = AccessStatus.success then f i else err) init
      = AccessStatus.success := by
  induction n with
  | zero => rcases h with ⟨i, hi, _⟩; omega
  | succ n ih =>
    rw [List.range_succ, List.foldl_append]
    simp only [List.foldl_cons, List.foldl_nil]
    rcases h with ⟨i, hi, hfi⟩
    by_cases hn : f n = AccessStatus.success
    · simp [hn]
    · have hi' : i < n := by
        rcases Nat.lt_succ_iff_lt_or_eq.mp hi with h' | h'
        · exact h'
        · subst h'; exact absurd hfi hn
      rw [ih ⟨i, hi', hfi⟩]
      simp [hn]

/-! ## Lemmas: malformed stored page-128 blobs -/

theorem cdp128Walk_malformed (fuel : Nat) :
    ∀ b count, cdp128MalformedAux fuel b = true → cdp128Walk fuel b count = 0 := by
  induction fuel with
  | zero => intro b count _; rfl
  | succ fuel ih =>
    intro b count hm
    unfold cdp128MalformedAux at hm
    unfold cdp128Walk
    by_cases hb : b.length = 0
    · rw [if_pos hb] at hm
      exact absurd hm (by simp)
    · rw [if_neg hb] at hm
      by_cases hs : next_elem_size_cdp128 b = 0
      · simp [hs, hb]
      · rw [if_neg hs] at hm
        by_cases hlen : b.length < next_elem_size_cdp128 b
        · simp [hs, hlen]
        · rw [if_neg hlen] at hm
          simp only [hs, hlen, if_neg, if_false]
          exact ih _ _ hm

/-! ## Lemmas: unfolding the extend containment loop -/

theorem extendContainsLoop_step (st : RingState) (a b cur : Nat) (fuel : Nat) :
    extendContainsLoop st a b (fuel + 1) (some cur)
      = if st.next cur = some a then false
        else if cur = b then true
        else extendContainsLoop st a b fuel (st.next cur) := rfl

theorem extendContainsLoop_none (st : RingState) (a b : Nat) (fuel : Nat) :
    extendContainsLoop st a b fuel none = false := by
  cases fuel <;> rfl

/-! ## Claim-level theorems -/

/-- C1.  Evaluation of the high-pages store at the claimed scenario: writing
page 128 with data byte-identical to the live page 0 (the equality check does
fire) stores a zero-length record rather than the one-byte 0x00 sentinel;
afterwards page_size for page 128 falls back to the live page-0 size of 16
instead of returning 0, and comp_128_changed() is false because the settings
size callback never fires for a zero-length record. -/
theorem c1_sentinel_collapse_code_eval :
    0 < (page0Bytes c1Comp).length ∧
    new_page_data_is_equal c1State 64 128 (page0Bytes c1Comp) = true ∧
    (stored_page_write c1State 64 128 (page0Bytes c1Comp)).toOption
      = some (StoredPages.mk (some []) none none) ∧
    (some ([] : List Nat) ≠ some [0]) ∧
    page_size_get c1StateAfter 128 = 16 ∧
    comp_page_0_size c1Comp = 16 ∧
    bt_mesh_comp_128_changed c1StateAfter = false := by
  decide

/-- C2.  Evaluation of bt_mesh_model_correspond at a table holding one
correspondence group with id 3 between the models (0,0) and (0,1): a
correspondence between the fresh models (1,0) and (1,1) — neither referenced
by any record — is registered with group id 3, the tracked maximum itself,
aliasing the existing group, where the claim requires max_id + 1 = 4. -/
theorem c2_correspond_code_eval :
    bt_mesh_model_correspond c2Rels ⟨1, 0⟩ ⟨1, 1⟩
      = c2Rels ++ [ModRel.mk 1 1 1 0 3] ∧
    (3 : Nat) ≠ 3 + 1 := by
  decide

/-- C3 counterexample.  For the model at element 3 extending a base model
three elements earlier at base index 0, the serialized page-1 model item is
not header 0x04 followed by entry 0x05: the code computes the element offset
as elem_ext - elem_base = +3, so no +8 wrap applies. -/
theorem c3_counterexample :
    modelItemBytes c3Rels ⟨3, 0⟩ ≠ [0x04, 0x05] := by
  decide

/-- C3 as amended.  For an element containing exactly one SIG model (index 0)
that extends a base model located 3 elements earlier at base model index 0,
the serialized page-1 model item is the header byte 0x04 followed by the
single short-format entry byte 0x03: the relative element offset is computed
as the extending element minus the base element, +3, encoded without wrap,
with base model index 0 in the upper bits. -/
theorem c3_amended_short_entry :
    modelItemBytes c3Rels ⟨3, 0⟩ = [0x04, 0x03] ∧
    elem1Bytes c3Rels 3 c3Elem = [0x01, 0x00, 0x04, 0x03] := by
  decide

/-- C4 counterexample.  One element whose only model handles just opcode 5
receives opcode 6 on a group destination: the element delivery returns
WRONG_OPCODE, yet the aggregated status is MESSAGE_NOT_UNDERSTOOD — not the
last non-success status as claimed. -/
theorem c4_counterexample :
    element_model_recv c4Comp c4Ctx 0 0 6 = AccessStatus.wrongOpcode ∧
    (bt_mesh_model_recv c4Comp true c4Ctx [6]).1 = AccessStatus.messageNotUnderstood ∧
    AccessStatus.messageNotUnderstood ≠ AccessStatus.wrongOpcode := by
  decide

/-- C4 as amended.  For a received message whose destination is not a unicast
address, delivery is attempted to every element and the returned status is
SUCCESS if at least one element's delivery returned SUCCESS, and otherwise is
MESSAGE_NOT_UNDERSTOOD (the initial accumulator) regardless of the statuses
the elements returned. -/
theorem c4_nonunicast_aggregation (c : RComp) (reg : Bool) (ctx : RecvCtx)
    (buf : List Nat) (opcode : Nat) (rest : List Nat)
    (hdec : get_opcode buf = some (opcode, rest))
    (hnu : BT_MESH_ADDR_IS_UNICAST ctx.recv_dst = false) :
    ((∃ i, i < c.elems.length ∧
        element_model_recv c ctx rest.length i opcode = AccessStatus.success) →
      (bt_mesh_model_recv c reg ctx buf).1 = AccessStatus.success) ∧
    ((∀ i, i < c.elems.length →
        element_model_recv c ctx rest.length i opcode ≠ AccessStatus.success) →
      (bt_mesh_model_recv c reg ctx buf).1 = AccessStatus.messageNotUnderstood) := by
  unfold bt_mesh_model_recv
  rw [hdec]
  simp only [hnu, Bool.false_eq_true, if_false]
  constructor
  · intro h
    exact recvFold_success (fun i => element_model_recv c ctx rest.length i opcode)
      c.elems.length AccessStatus.messageNotUnderstood h
  · intro h
    exact recvFold_no_success (fun i => element_model_recv c ctx rest.length i opcode)
      c.elems.length AccessStatus.messageNotUnderstood h

/-- C4 witness: the amended aggregation applied to the one-element fixture. -/
theorem c4_nonunicast_aggregation_witness :
    (bt_mesh_model_recv c4Comp true c4Ctx [6]).1 = AccessStatus.messageNotUnderstood :=
  (c4_nonunicast_aggregation c4Comp true c4Ctx [6] 6 [] (by decide) (by decide)).2
    (by decide)

/-- C5 counterexample.  With a raw-message callback registered, a message to
the unicast address 5 on a node whose single element has address 1 is rejected
as out of range and the callback is not invoked, contradicting the claim that
it is invoked even in that case. -/
theorem c5_counterexample :
    BT_MESH_ADDR_IS_UNICAST 5 = true ∧
    bt_mesh_model_recv c5Comp true ⟨7, 5, none⟩ [5]
      = (AccessStatus.invalidAddress, false) := by
  decide

/-- C5 as amended.  The registered raw-message callback is invoked after the
per-destination dispatch exactly when the opcode decoded and the destination
is not a unicast address whose element index is out of range; the out-of-range
unicast path returns INVALID_ADDRESS before the callback point. -/
theorem c5_raw_callback (c : RComp) (reg : Bool) (ctx : RecvCtx) (buf : List Nat) :
    (bt_mesh_model_recv c reg ctx buf).2
      = (reg && (get_opcode buf).isSome &&
         !(BT_MESH_ADDR_IS_UNICAST ctx.recv_dst &&
           decide (c.elems.length ≤ unicastIndex c ctx.recv_dst))) := by
  unfold bt_mesh_model_recv
  cases hdec : get_opcode buf with
  | none => simp
  | some p =>
    cases p with
    | mk opcode rest =>
      cases hu : BT_MESH_ADDR_IS_UNICAST ctx.recv_dst with
      | false => simp [hu]
      | true =>
        by_cases hr : c.elems.length ≤ unicastIndex c ctx.recv_dst
        · simp [hu, hr]
        · simp [hu, hr]

/-- C6.  Opcode decoding over any non-empty buffer: the reserved byte 0x7F is
rejected, a 3-octet opcode with fewer than 3 bytes available and a 2-octet
opcode with fewer than 2 bytes available are rejected, a leading byte with top
bits 10 decodes as a big-endian 2-octet opcode, a leading byte with top bits
11 decodes as the byte shifted left 16 combined with the little-endian 16-bit
company id of bytes 1-2, a 1-octet opcode decodes as itself, and decoding
fails in no other case. -/
theorem c6_get_opcode (b0 : Nat) (rest : List Nat) (hb : b0 < 256) :
    (b0 = 0x7f → get_opcode (b0 :: rest) = none) ∧
    (b0 < 0x80 → b0 ≠ 0x7f → get_opcode (b0 :: rest) = some (b0, rest)) ∧
    (0x80 ≤ b0 → b0 < 0xC0 → rest = [] → get_opcode (b0 :: rest) = none) ∧
    (∀ b1 r2, 0x80 ≤ b0 → b0 < 0xC0 → rest = b1 :: r2 →
      get_opcode (b0 :: rest) = some ((b0 <<< 8) ||| b1, r2)) ∧
    (0xC0 ≤ b0 → rest.length < 2 → get_opcode (b0 :: rest) = none) ∧
    (∀ b1 b2 r3, 0xC0 ≤ b0 → rest = b1 :: b2 :: r3 →
      get_opcode (b0 :: rest) = some ((b0 <<< 16) ||| (b1 ||| (b2 <<< 8)), r3)) := by
  have hs : b0 >>> 6 = b0 / 64 := by
    rw [Nat.shiftRight_eq_div_pow]
  refine ⟨?_, ?_, ?_, ?_, ?_, ?_⟩
  · intro h; subst h; rfl
  · intro h1 h2
    have h01 : b0 >>> 6 = 0 ∨ b0 >>> 6 = 1 := by rw [hs]; omega
    simp only [get_opcode, if_pos h01, if_neg h2]
  · intro h1 h2 h3; subst h3
    have hn : ¬ (b0 >>> 6 = 0 ∨ b0 >>> 6 = 1) := by rw [hs]; omega
    have hv : b0 >>> 6 = 2 := by rw [hs]; omega
    simp only [get_opcode, if_neg hn, if_pos hv]
  · intro b1 r2 h1 h2 h3; subst h3
    have hn : ¬ (b0 >>> 6 = 0 ∨ b0 >>> 6 = 1) := by rw [hs]; omega
    have hv : b0 >>> 6 = 2 := by rw [hs]; omega
    simp only [get_opcode, if_neg hn, if_pos hv]
  · intro h1 h2
    have hn : ¬ (b0 >>> 6 = 0 ∨ b0 >>> 6 = 1) := by rw [hs]; omega
    have hn2 : ¬ b0 >>> 6 = 2 := by rw [hs]; omega
    have hv : b0 >>> 6 = 3 := by rw [hs]; omega
    match rest, h2 with
    | [], _ => simp only [get_opcode, if_neg hn, if_neg hn2, if_pos hv]
    | [b1], _ => simp only [get_opcode, if_neg hn, if_neg hn2, if_pos hv]
  · intro b1 b2 r3 h1 h3; subst h3
    have hn : ¬ (b0 >>> 6 = 0 ∨ b0 >>> 6 = 1) := by rw [hs]; omega
    have hn2 : ¬ b0 >>> 6 = 2 := by rw [hs]; omega
    have hv : b0 >>> 6 = 3 := by rw [hs]; omega
    simp only [get_opcode, if_neg hn, if_neg hn2, if_pos hv]

/-- C6 witness: 0x7F rejected, and a 2-octet opcode decoded big-endian. -/
theorem c6_get_opcode_witness :
    get_opcode (0x7f :: [1]) = none ∧
    get_opcode (0x82 :: [5]) = some ((0x82 <<< 8) ||| 5, []) := by
  constructor
  · exact (c6_get_opcode 0x7f [1] (by decide)).1 rfl
  · exact (c6_get_opcode 0x82 [5] (by decide)).2.2.2.1 5 [] (by decide) (by decide) rfl

/-- C7 counterexample.  In the state where a model with an extension record is
also the extension side of a correspondence record, page1_elem_size overcounts
the first element (counting the correspondence record as an entry), so the
element skip at offset 8 lands one byte early and streaming page 1 with
buffers of tailroom 4 duplicates a byte: the concatenation has 11 bytes while
the page has 10. -/
theorem c7_counterexample :
    streamPage (bt_mesh_comp_data_get_page_1 c7Comp c7Rels 4) 20 0
      = [2, 0, 1, 0, 5, 0, 0, 1, 1, 0, 0] ∧
    page1Bytes c7Comp c7Rels = [2, 0, 1, 0, 5, 0, 0, 1, 0, 0] ∧
    streamPage (bt_mesh_comp_data_get_page_1 c7Comp c7Rels 4) 20 0
      ≠ page1Bytes c7Comp c7Rels := by
  decide

/-- C7 as amended.  For pages 0 and 2, and for page 1 whenever every element's
page1_elem_size equals the length of its serialized bytes (which holds unless
some model having an extension record is also the extension side of a
correspondence record, the case of the counterexample), concatenating
successive get_page calls with positive tailroom, starting from any offset
within the page and advancing by the bytes written, reproduces the full
serialized page from that offset — in particular the whole page from offset 0.
The last three conjuncts tie the per-page producers to the
bt_mesh_comp_data_get_page dispatcher for pages 0, 1 and 2. -/
theorem c7_streaming_reassembly (c : Comp0) (rels : List ModRel) (rs : List Comp2Record)
    (sp : StoredPages) (cap fuel off0 off1 off2 : Nat) (hcap : 0 < cap)
    (h0 : off0 ≤ (page0Bytes c).length) (hf0 : (page0Bytes c).length - off0 < fuel)
    (hx : ∀ p ∈ c.elems.enum, page1_elem_size rels p.1 p.2 = (elem1Bytes rels p.1 p.2).length)
    (h1 : off1 ≤ (page1Bytes c rels).length)
    (hf1 : (page1Bytes c rels).length - off1 < fuel)
    (h2 : off2 ≤ (page2Bytes rs).length) (hf2 : (page2Bytes rs).length - off2 < fuel) :
    streamPage (bt_mesh_comp_data_get_page_0 c cap) fuel off0 = (page0Bytes c).drop off0 ∧
    streamPage (bt_mesh_comp_data_get_page_1 c rels cap) fuel off1
      = (page1Bytes c rels).drop off1 ∧
    streamPage (bt_mesh_comp_data_get_page_2 rs cap) fuel off2 = (page2Bytes rs).drop off2 ∧
    bt_mesh_comp_data_get_page ⟨c, rels, some rs, sp⟩ cap 0 off0
      = Except.ok (bt_mesh_comp_data_get_page_0 c cap off0) ∧
    bt_mesh_comp_data_get_page ⟨c, rels, some rs, sp⟩ cap 1 off1
      = Except.ok (bt_mesh_comp_data_get_page_1 c rels cap off1) ∧
    bt_mesh_comp_data_get_page ⟨c, rels, some rs, sp⟩ cap 2 off2
      = Except.ok (bt_mesh_comp_data_get_page_2 rs cap off2) := by
  refine ⟨?_, ?_, ?_, ?_, ?_, ?_⟩
  · exact streamPage_spec cap (page0Bytes c) _ (fun o => page0_window c cap o)
      hcap fuel off0 h0 hf0
  · exact streamPage_spec cap (page1Bytes c rels) _ (fun o => page1_window c rels cap o hx)
      hcap fuel off1 h1 hf1
  · exact streamPage_spec cap (page2Bytes rs) _ (fun o => page2_window rs cap o)
      hcap fuel off2 h2 hf2
  · rfl
  · rfl
  · rfl

/-- C7 witness: reassembly of all three pages of a concrete composition from
offset 0 with tailroom 3, and the dispatcher equalities. -/
theorem c7_streaming_reassembly_witness :
    streamPage (bt_mesh_comp_data_get_page_0 c7wComp 3) 30 0
      = (page0Bytes c7wComp).drop 0 ∧
    streamPage (bt_mesh_comp_data_get_page_1 c7wComp [] 3) 30 0
      = (page1Bytes c7wComp []).drop 0 ∧
    streamPage (bt_mesh_comp_data_get_page_2 c7wRs 3) 30 0 = (page2Bytes c7wRs).drop 0 ∧
    bt_mesh_comp_data_get_page ⟨c7wComp, [], some c7wRs, ⟨none, none, none⟩⟩ 3 0 0
      = Except.ok (bt_mesh_comp_data_get_page_0 c7wComp 3 0) ∧
    bt_mesh_comp_data_get_page ⟨c7wComp, [], some c7wRs, ⟨none, none, none⟩⟩ 3 1 0
      = Except.ok (bt_mesh_comp_data_get_page_1 c7wComp [] 3 0) ∧
    bt_mesh_comp_data_get_page ⟨c7wComp, [], some c7wRs, ⟨none, none, none⟩⟩ 3 2 0
      = Except.ok (bt_mesh_comp_data_get_page_2 c7wRs 3 0) :=
  c7_streaming_reassembly c7wComp [] c7wRs ⟨none, none, none⟩ 3 30 0 0 0
    (by decide) (by decide) (by decide) (by decide) (by decide) (by decide)
    (by decide) (by decide)

/-- C8 counterexample.  Extending the same fresh pair twice is not a no-op:
the first extend(1, 0) links the two models into a two-model ring and registers
one extension record; the second call with the same pair misses the base in
the containment check (the base is the extending model's ring predecessor),
relinks both models to themselves — splitting the ring — and appends a
duplicate extension record. -/
theorem c8_counterexample :
    c8First.2 = [ModRel.mk 0 0 0 1 255] ∧
    c8First.1.next 0 = some 1 ∧ c8First.1.next 1 = some 0 ∧
    c8Second.2 = [ModRel.mk 0 0 0 1 255, ModRel.mk 0 0 0 1 255] ∧
    c8Second.1.next 0 = some 0 ∧ c8Second.1.next 1 = some 1 := by
  decide

/-- C8 as amended.  For two distinct models with no prior ring links, the
first extend(a, b) builds the two-model ring and registers one type-0xFF
record; calling extend(a, b) a second time with the same pair is not a no-op:
the containment loop stops before testing the base (the predecessor of a), so
the merge runs again, relinking each model's next to itself and splitting the
ring, and mod_rel_register appends a second, duplicate type-0xFF record. -/
theorem c8_reextend_not_noop (st : RingState) (rels : List ModRel) (key : Nat → ModKey)
    (fuel : Nat) (a b : Nat) (hab : a ≠ b) (hfuel : 2 ≤ fuel)
    (ha : st.next a = none) (hb : st.next b = none) :
    (bt_mesh_model_extend st rels key fuel a b).1.next b = some a ∧
    (bt_mesh_model_extend st rels key fuel a b).1.next a = some b ∧
    (bt_mesh_model_extend st rels key fuel a b).2.length = rels.length + 1 ∧
    (bt_mesh_model_extend (bt_mesh_model_extend st rels key fuel a b).1
        (bt_mesh_model_extend st rels key fuel a b).2 key fuel a b).1.next b = some b ∧
    (bt_mesh_model_extend (bt_mesh_model_extend st rels key fuel a b).1
        (bt_mesh_model_extend st rels key fuel a b).2 key fuel a b).1.next a = some a ∧
    (bt_mesh_model_extend (bt_mesh_model_extend st rels key fuel a b).1
        (bt_mesh_model_extend st rels key fuel a b).2 key fuel a b).2.length
      = rels.length + 2 := by
  obtain ⟨f, rfl⟩ : ∃ f, fuel = f + 1 + 1 := ⟨fuel - 2, by omega⟩
  obtain ⟨nx, ex⟩ := st
  simp only at ha hb
  have hba : ¬ (some b = some a) := by
    intro hcontra
    exact hab (Option.some.inj hcontra).symm
  have hloop1 : ∀ e : Nat → Bool,
      extendContainsLoop ⟨nx, e⟩ a b (f + 1 + 1) (some a) = false := by
    intro e
    have hnx : (⟨nx, e⟩ : RingState).next a = none := ha
    rw [extendContainsLoop_step, hnx, if_neg (by simp), if_neg hab, extendContainsLoop_none]
  have hfirst : bt_mesh_model_extend ⟨nx, ex⟩ rels key (f + 1 + 1) a b
      = (⟨fun m => if m = b then some a else if m = a then some b else nx m,
          fun m => if m = b then true else ex m⟩,
         mod_rel_register rels (key b) (key a) RELATION_TYPE_EXT) := by
    unfold bt_mesh_model_extend
    rw [if_neg hab]
    simp only [hloop1, Bool.false_eq_true, if_false, ha, hb, Option.getD_none]
  have hloop2 : ∀ e : Nat → Bool,
      extendContainsLoop
        ⟨fun m => if m = b then some a else if m = a then some b else nx m, e⟩
        a b (f + 1 + 1) (some a) = false := by
    intro e
    have hS2a' : (⟨fun m => if m = b then some a else if m = a then some b else nx m, e⟩ :
        RingState).next a = some b := by
      simp [Ne.symm hab]
    have hS2b' : (⟨fun m => if m = b then some a else if m = a then some b else nx m, e⟩ :
        RingState).next b = some a := by
      simp
    rw [extendContainsLoop_step, hS2a', if_neg hba, if_neg hab]
    rw [extendContainsLoop_step, hS2b', if_pos rfl]
  have hS2a : (fun m => if m = b then some a else if m = a then some b else nx m) a = some b := by
    simp [Ne.symm hab]
  have hS2b : (fun m => if m = b then some a else if m = a then some b else nx m) b = some a := by
    simp
  refine ⟨?_, ?_, ?_, ?_, ?_, ?_⟩
  · rw [hfirst]; simp
  · rw [hfirst]; simp [Ne.symm hab]
  · rw [hfirst]; simp [mod_rel_register]
  · rw [hfirst]
    unfold bt_mesh_model_extend
    rw [if_neg hab]
    simp only [hloop2, Bool.false_eq_true, if_false]
    simp [hS2a, hS2b, hab, Ne.symm hab]
  · rw [hfirst]
    unfold bt_mesh_model_extend
    rw [if_neg hab]
    simp only [hloop2, Bool.false_eq_true, if_false]
    simp [hS2a, hS2b, hab, Ne.symm hab]
  · rw [hfirst]
    unfold bt_mesh_model_extend
    rw [if_neg hab]
    simp only [hloop2, Bool.false_eq_true, if_false]
    simp [mod_rel_register]

/-- C8 witness: the re-extend behavior on the concrete two-model state. -/
theorem c8_reextend_not_noop_witness :
    (bt_mesh_model_extend c8Ring0 [] c8Key 2 1 0).1.next 0 = some 1 ∧
    (bt_mesh_model_extend c8Ring0 [] c8Key 2 1 0).1.next 1 = some 0 ∧
    (bt_mesh_model_extend c8Ring0 [] c8Key 2 1 0).2.length
      = List.length ([] : List ModRel) + 1 ∧
    (bt_mesh_model_extend (bt_mesh_model_extend c8Ring0 [] c8Key 2 1 0).1
        (bt_mesh_model_extend c8Ring0 [] c8Key 2 1 0).2 c8Key 2 1 0).1.next 0 = some 0 ∧
    (bt_mesh_model_extend (bt_mesh_model_extend c8Ring0 [] c8Key 2 1 0).1
        (bt_mesh_model_extend c8Ring0 [] c8Key 2 1 0).2 c8Key 2 1 0).1.next 1 = some 1 ∧
    (bt_mesh_model_extend (bt_mesh_model_extend c8Ring0 [] c8Key 2 1 0).1
        (bt_mesh_model_extend c8Ring0 [] c8Key 2 1 0).2 c8Key 2 1 0).2.length
      = List.length ([] : List ModRel) + 2 :=
  c8_reextend_not_noop c8Ring0 [] c8Key 2 1 0 (by decide) (by decide) rfl rfl

/-- C9 counterexample.  The claimed uniform random delay window [20, 520) is
wrong: at the random draw 490, a 500 ms window (which a uniform [20, 520)
delay of the form 20 + rand mod window would need) gives 510 ms, but the code
reduces modulo RANDOM_DELAY_LONG = 480 and schedules 30 ms; the amended
theorem shows every scheduled delay lies below 500. -/
theorem c9_counterexample :
    pub_delay_get RANDOM_DELAY_LONG 490 = 30 ∧
    pub_delay_get 500 490 = 510 ∧
    pub_delay_get RANDOM_DELAY_LONG 490 ≠ 510 := by
  decide

/-- C9 as amended.  For a model whose publish validity checks pass (address
assigned, message present and non-empty, message length plus MIC within the
maximum SDU), publish succeeds with count = 1 + retransmit count and
period_start = now, and schedules the first transmission after the random
delay 20 + rand mod 480 — a uniform delay in [20, 500) — when the publication
is delayable, and immediately otherwise. -/
theorem c9_publish_postcondition (p : PubState) (msg : List Nat) (sduMax now rand : Nat)
    (h1 : p.addr ≠ 0) (h2 : p.msg = some msg) (h3 : msg.length ≠ 0)
    (h4 : msg.length + BT_MESH_MIC_SHORT ≤ sduMax) :
    bt_mesh_model_publish (some p) sduMax now rand
      = Except.ok ({ p with count := BT_MESH_PUB_MSG_TOTAL p, period_start := now },
          if p.delayable then PubSched.delayed (pub_delay_get RANDOM_DELAY_LONG rand)
          else PubSched.immediate) ∧
    BT_MESH_PUB_MSG_TOTAL p = 1 + BT_MESH_PUB_TRANSMIT_COUNT p.retransmit ∧
    20 ≤ pub_delay_get RANDOM_DELAY_LONG rand ∧
    pub_delay_get RANDOM_DELAY_LONG rand < 500 := by
  refine ⟨?_, ?_, ?_, ?_⟩
  · simp only [bt_mesh_model_publish, h2]
    rw [if_neg h1, if_neg h3,
      if_neg (show ¬ sduMax < msg.length + BT_MESH_MIC_SHORT by omega)]
    by_cases hd : p.delayable = true
    · simp [hd]
    · simp [hd]
  · unfold BT_MESH_PUB_MSG_TOTAL
    omega
  · unfold pub_delay_get
    omega
  · unfold pub_delay_get RANDOM_DELAY_LONG
    have hm : rand % 65536 % 480 < 480 := Nat.mod_lt _ (by omega)
    omega

/-- C9 witness: publish on a delayable publication with retransmit byte 0x2A
(count 2) at time 77 with the random value 499. -/
theorem c9_publish_postcondition_witness :
    bt_mesh_model_publish (some c9Pub) 20 77 499
      = Except.ok ({ c9Pub with count := BT_MESH_PUB_MSG_TOTAL c9Pub, period_start := 77 },
          if c9Pub.delayable then PubSched.delayed (pub_delay_get RANDOM_DELAY_LONG 499)
          else PubSched.immediate) ∧
    BT_MESH_PUB_MSG_TOTAL c9Pub = 1 + BT_MESH_PUB_TRANSMIT_COUNT c9Pub.retransmit ∧
    20 ≤ pub_delay_get RANDOM_DELAY_LONG 499 ∧
    pub_delay_get RANDOM_DELAY_LONG 499 < 500 :=
  c9_publish_postcondition c9Pub [1, 2, 3] 20 77 499 (by decide) rfl (by decide) (by decide)

/-- C10.  bt_mesh_comp_128_elem_count returns the live composition's element
count when no page-128 record is stored, and returns 0 whenever the stored
blob is malformed: after any number of complete elements, either an element
header claims more bytes than remain, or non-element garbage (a fragment
shorter than an element header) trails the data. -/
theorem c10_comp_128_elem_count (st : DevState) :
    (settings_get st.stored CompPagePath.p128 = none →
      bt_mesh_comp_128_elem_count st = st.comp.elems.length) ∧
    (∀ b, settings_get st.stored CompPagePath.p128 = some b → cdp128Malformed b = true →
      bt_mesh_comp_128_elem_count st = 0) := by
  constructor
  · intro h
    unfold bt_mesh_comp_128_elem_count
    rw [h]
    rfl
  · intro b hbrec hm
    unfold bt_mesh_comp_128_elem_count
    rw [hbrec]
    have hb0 : ¬ b.length = 0 := by
      intro h0
      have hnil : b = [] := List.eq_nil_of_length_eq_zero h0
      subst hnil
      simp [cdp128Malformed, cdp128MalformedAux] at hm
    simp only [Option.getD_some]
    rw [if_neg hb0]
    exact cdp128Walk_malformed (b.length + 1) b 0 hm

/-- C10 witness: the live count with nothing stored, and 0 for the stored
blob [0], whose single byte is shorter than an element header. -/
theorem c10_comp_128_elem_count_witness :
    bt_mesh_comp_128_elem_count c10StateNone = 1 ∧
    bt_mesh_comp_128_elem_count c10StateBad = 0 :=
  ⟨(c10_comp_128_elem_count c10StateNone).1 rfl,
   (c10_comp_128_elem_count c10StateBad).2 [0] rfl (by decide)⟩

end MeshAccess
